import Mathlib

/-!
Shallow embedding of `blockstack_zones/parse_zone_file.py` (a DNS zonefile
parser) and proofs about it.  Python strings are modelled as Lean `String`
(a wrapper around `List Char`), Python `int` as `Int`, Python dictionaries
that the code builds in a deterministic insertion order as association
lists, and Python exceptions as an explicit error type: raising
`InvalidLineException` is `PErr.invalidLine`, while any other uncaught
runtime exception (`TypeError`, `AssertionError`, `IndexError`, ...) is
`PErr.pyError`.
-/

namespace ZoneFilePy

/-- Errors a line parse can raise: `invalidLine` models the package's
`InvalidLineException` (carrying the offending line), `pyError` models any
other uncaught Python runtime exception, tagged with its kind. -/
inductive PErr : Type
  | invalidLine (line : String)
  | pyError (msg : String)
deriving DecidableEq, Repr

/-- Python `c.isspace()` restricted to the ASCII whitespace characters. -/
def pyIsSpace (c : Char) : Bool :=
  c = ' ' || c = '\t' || c = '\n' || c = '\r' || c = '\x0b' || c = '\x0c'

/-- Python `s.strip(c)` on a character list: drop every leading and trailing
occurrence of the character `c`. -/
def stripChar (c : Char) (l : List Char) : List Char :=
  ((l.dropWhile (· = c)).reverse.dropWhile (· = c)).reverse

/-- Python `s.lstrip(c)`: drop every leading occurrence of `c`. -/
def lstripChar (c : Char) (s : String) : String :=
  ⟨s.data.dropWhile (· = c)⟩

/-- Python `s.rstrip(c)`: drop every trailing occurrence of `c`. -/
def rstripChar (c : Char) (s : String) : String :=
  ⟨(s.data.reverse.dropWhile (· = c)).reverse⟩

/-- Python `s.startswith(c)` for a one-character prefix. -/
def headIs (c : Char) (s : String) : Bool :=
  match s.data with
  | [] => false
  | d :: _ => d = c

/-- Python `s.endswith(c)` for a one-character suffix. -/
def lastIs (c : Char) (s : String) : Bool :=
  match s.data.getLast? with
  | none => false
  | some d => d = c

/-- Python `sep.join(parts)`. -/
def pyJoin (sep : String) : List String → String
  | [] => ""
  | [x] => x
  | x :: y :: r => x ++ sep ++ pyJoin sep (y :: r)

/-- Python `s.split(sep)` for a one-character separator, on character lists:
splitting never drops empty pieces, and the empty input gives one empty
piece. -/
def splitCharList (sep : Char) : List Char → List (List Char)
  | [] => [[]]
  | c :: cs =>
    let r := splitCharList sep cs
    if c = sep then [] :: r
    else
      match r with
      | h :: t => (c :: h) :: t
      | [] => [[c]]

/-- Python `s.split(sep)` for a one-character separator, on strings. -/
def pySplit (sep : Char) (s : String) : List String :=
  (splitCharList sep s.data).map (fun cs => ⟨cs⟩)

/-- The scanning loop of `tokenize_line` (source lines 97-142): one step per
character, carrying the emitted tokens `acc`, the token buffer `buf`, and
the `escape` and `quote` flags.  An unescaped `;` flushes the buffer and
stops; end of input flushes the buffer when it is more than spaces and
newlines. -/
def tokGo : List Char → List String → String → Bool → Bool → List String
  | [], acc, buf, _, _ =>
    if (stripChar '\n' (stripChar ' ' buf.data)).length > 0 then acc ++ [buf] else acc
  | c :: cs, acc, buf, esc, q =>
    if pyIsSpace c then
      if !q && !esc then
        tokGo cs (if buf.length > 0 then acc ++ [buf] else acc) "" false false
      else if q then
        tokGo cs acc (buf.push c) esc true
      else
        tokGo cs acc (buf.push c) false false
    else if c = '\\' then
      tokGo cs acc buf true q
    else if c = '"' then
      if !esc then
        if q then tokGo cs (acc ++ [buf]) "" false false
        else tokGo cs acc buf false true
      else tokGo cs acc (buf.push c) false q
    else if c = ';' then
      if !esc then acc ++ [buf]
      else tokGo cs acc (buf.push c) false q
    else
      tokGo cs acc (buf.push c) false q

/-- Source `tokenize_line` (lines 84-147): split a line into tokens on
whitespace, honouring quotes, backslash escapes and `;` comments. -/
def tokenize_line (line : String) : List String :=
  tokGo line.data [] "" false false

/-- Python `tok.replace(";", "\\;")`: each semicolon becomes backslash
followed by semicolon. -/
def escSemis (s : String) : String :=
  ⟨(s.data.map (fun c => if c = ';' then ['\\', ';'] else [c])).flatten⟩

/-- Serialization of one token (body of the loop in source `serialize`,
lines 157-164): quote it when it contains a space, then escape semicolons. -/
def serializeTok (tok : String) : String :=
  let t1 := if ' ' ∈ tok.data then "\"" ++ tok ++ "\"" else tok
  if ';' ∈ t1.data then escSemis t1 else t1

/-- Source `serialize` (lines 150-166): serialize tokens back to one line. -/
def serialize (tokens : List String) : String :=
  pyJoin " " (tokens.map serializeTok)

/-- Source `remove_comments` (lines 169-182): per non-empty line, retokenize
and re-serialize (dropping any trailing comment), then rejoin with
newlines.  Lines that are empty in the input are dropped. -/
def remove_comments (text : String) : String :=
  pyJoin "\n" ((pySplit '\n' text).filterMap
    (fun line => if line = "" then none else some (serialize (tokenize_line line))))

/-- Python `l.replace("\t", " ")`. -/
def tabToSpace (s : String) : String :=
  ⟨s.data.map (fun c => if c = '\t' then ' ' else c)⟩

/-- The capture loop of source `flatten` (lines 207-227): walk the token
stream (with `""` sentinels marking original line breaks) with a
`capturing` flag, a `captured` buffer, and the list of flushed lines.  A
sentinel outside a group flushes the buffer; a token starting with `(`
opens a group (leading parens stripped); a token ending with `)` while
capturing closes it (trailing parens stripped); everything reached past
the first branch is appended to the buffer, sentinels included. -/
def flattenGo : List String → Bool → List String → List String → List String
  | [], _, _, flatAcc => flatAcc
  | tok :: rest, capturing, captured, flatAcc =>
    if !capturing && tok = "" then
      if captured.length > 0 then
        flattenGo rest capturing [] (flatAcc ++ [pyJoin " " captured])
      else
        flattenGo rest capturing captured flatAcc
    else
      let p1 := if headIs '(' tok then (lstripChar '(' tok, true) else (tok, capturing)
      let p2 := if p1.2 && lastIs ')' p1.1 then (rstripChar ')' p1.1, false) else p1
      flattenGo rest p2.2 (captured ++ [p2.1]) flatAcc

/-- Source `flatten` (lines 185-228): join parenthesized groups spanning
several physical lines into one line.  Each non-empty input line becomes
its space-separated words followed by a `""` end-of-line sentinel, and the
capture loop runs over that stream. -/
def flatten (text : String) : String :=
  let tokens := ((pySplit '\n' text).filter (fun l => l ≠ "")).map
    (fun l => ((pySplit ' ' (tabToSpace l)).filter (fun x => x.length > 0)) ++ [""])
  pyJoin "\n" (flattenGo tokens.flatten false [] [])

/-- Modelled from the spec: `SUPPORTED_RECORDS` lives in `configs.py`, which
is not under `src/`; the spec's §6 record-type vocabulary (which matches
the module docstring of `parse_zone_file.py`) fixes its contents. -/
def SUPPORTED_RECORDS : List String :=
  ["$ORIGIN", "$TTL", "SOA", "NS", "A", "AAAA", "CNAME", "MX", "PTR",
   "TXT", "SRV", "SPF", "URI"]

/-- Source `add_default_name` (lines 231-251): per line, if the first token
is a supported record type that is not a `$` directive, prepend the
default name token `@`; lines with no tokens are dropped; every kept line
is re-serialized. -/
def add_default_name (text : String) : String :=
  pyJoin "\n" ((pySplit '\n' text).filterMap
    (fun line =>
      match tokenize_line line with
      | [] => none
      | t0 :: rest =>
        if t0 ∈ SUPPORTED_RECORDS && !headIs '$' t0 then
          some (serialize ("@" :: t0 :: rest))
        else
          some (serialize (t0 :: rest))))

/-- Value of one parsed record field: Python strings, ints, and the `True`
stored under `_missing_class`. -/
inductive FieldVal : Type
  | str (s : String)
  | int (n : Int)
  | bool (b : Bool)
deriving DecidableEq, Repr

/-- One parsed record (`record_dict` in the source): field name to value, in
insertion order. -/
abbrev Record := List (String × FieldVal)

/-- Value stored in the output mapping: a scalar for the `$ORIGIN` / `$TTL`
directives, a list of records for resource-record types. -/
inductive ZVal : Type
  | scalar (v : FieldVal)
  | recs (rs : List Record)
deriving DecidableEq, Repr

/-- The output mapping (`json_zone_file` in the source, a
`defaultdict(list)`): key to value, in insertion order. -/
abbrev ZFile := List (String × ZVal)

/-- First binding of a key in an association list (Python `d.get(k)`). -/
def assocFind (k : String) : List (String × α) → Option α
  | [] => none
  | (k1, v) :: rest => if k1 = k then some v else assocFind k rest

/-- Python `d[k] = v` on an insertion-ordered dictionary: overwrite in place
when the key exists, append otherwise. -/
def assocSet (k : String) (v : α) : List (String × α) → List (String × α)
  | [] => [(k, v)]
  | (k1, v1) :: rest => if k1 = k then (k, v) :: rest else (k1, v1) :: assocSet k v rest

/-- Python `int(s)`: strip surrounding whitespace, allow one sign, then a
non-empty run of decimal digits; anything else raises (here: `none`). -/
def pyInt? (s : String) : Option Int :=
  let cs := stripWS s.data
  let p : Bool × List Char :=
    match cs with
    | '+' :: r => (false, r)
    | '-' :: r => (true, r)
    | r => (false, r)
  if p.2.length > 0 && p.2.all Char.isDigit then
    let n : Nat := p.2.foldl (fun n c => 10 * n + (c.toNat - 48)) 0
    some (if p.1 then -(n : Int) else (n : Int))
  else
    none
where
  /-- strip Python whitespace from both ends -/
  stripWS (l : List Char) : List Char :=
    ((l.dropWhile pyIsSpace).reverse.dropWhile pyIsSpace).reverse

/-- Declared type of a record field in `make_parser` / `make_rr_subparser`. -/
inductive FTy : Type
  | str
  | int
deriving DecidableEq, Repr

/-- The type-specific argument schemas registered in source `make_parser`
(lines 48-81): field name and declared type, per record type. -/
def rrArgsAndTypes : String → Option (List (String × FTy))
  | "SOA" => some [("mname", .str), ("rname", .str), ("serial", .int), ("refresh", .int),
                   ("retry", .int), ("expire", .int), ("minimum", .int)]
  | "NS" => some [("host", .str)]
  | "A" => some [("ip", .str)]
  | "AAAA" => some [("ip", .str)]
  | "CNAME" => some [("alias", .str)]
  | "MX" => some [("preference", .str), ("host", .str)]
  | "TXT" => some [("txt", .str)]
  | "PTR" => some [("host", .str)]
  | "SRV" => some [("priority", .int), ("weight", .int), ("port", .int), ("target", .str)]
  | "SPF" => some [("data", .str)]
  | "URI" => some [("priority", .int), ("weight", .int), ("target", .str)]
  | _ => none

/-- Convert one argument string according to its declared type (argparse
`type=str` / `type=int`). -/
def convField (t : FTy) (v : String) : Option FieldVal :=
  match t with
  | .str => some (.str v)
  | .int => (pyInt? v).map (fun n => .int n)

/-- Convert the type-specific arguments in order; `none` when any `int`
conversion fails. -/
def convFields : List (String × FTy) → List String → Option Record
  | [], _ => some []
  | _ :: _, [] => none
  | (nm, t) :: fs, v :: vs =>
    match convField t v with
    | none => none
    | some fv =>
      match convFields fs vs with
      | none => none
      | some r => some ((nm, fv) :: r)

/-- The token-list rewriting at the top of source `parse_line` (lines
269-290): locate the record type at position 1, 2 or 3, copy it to the
front, and normalize the optional TTL / class slots.  The boolean is
`class_inferred`.  Reading the first character of an empty token at
position 1 of the original list is a Python `IndexError`. -/
def transformTokens : List String → Except PErr (List String × Bool)
  | [] => .ok ([], false)
  | [t0] => .ok ([t0], false)
  | t0 :: t1 :: rest =>
    if t1 ∈ SUPPORTED_RECORDS then
      -- RR has no TTL or CLASS: prepend type, insert "IN" at slot 2
      .ok (t1 :: t0 :: "IN" :: t1 :: rest, true)
    else
      match rest with
      | [] => .ok ([t0, t1], false)
      | t2 :: rest2 =>
        if t2 ∈ SUPPORTED_RECORDS then
          -- RR has a TTL or a CLASS at slot 1
          match t1.data with
          | [] => .error (.pyError "IndexError")
          | c :: _ =>
            if c.isDigit then .ok (t2 :: t0 :: t1 :: "IN" :: t2 :: rest2, true)
            else .ok (t2 :: t0 :: t1 :: t2 :: rest2, false)
        else
          match rest2 with
          | [] => .ok ([t0, t1, t2], false)
          | t3 :: rest3 =>
            if t3 ∈ SUPPORTED_RECORDS then
              -- RR has both TTL and CLASS at slots 1-2, either order
              match t1.data with
              | [] => .error (.pyError "IndexError")
              | c :: _ =>
                if !c.isDigit then .ok (t3 :: t0 :: t2 :: t1 :: t3 :: rest3, false)
                else .ok (t3 :: t0 :: t1 :: t2 :: t3 :: rest3, false)
            else
              .ok (t0 :: t1 :: t2 :: t3 :: rest3, false)

/-- One resource-record subparser (source `make_rr_subparser`, lines 31-45),
applied to the arguments after the subcommand: positional slots are
`name`, optional `ttl` (int), `class`, the type token itself, then the
type-specific fields.  Any argparse failure — wrong argument count or a
failed int conversion — raises `InvalidLineException(line)`; the sentinel
check of source lines 303-311 failing raises an uncaught
`AssertionError`. -/
def parseRR (cmd : String) (fields : List (String × FTy)) (rest : List String)
    (line : String) : Except PErr Record :=
  let req := 3 + fields.length
  if rest.length = req then
    match rest with
    | nm :: cls :: sentinel :: fargs =>
      match convFields fields fargs with
      | none => .error (.invalidLine line)
      | some fvals =>
        if sentinel = cmd then .ok ([("name", .str nm), ("class", .str cls)] ++ fvals)
        else .error (.pyError "AssertionError")
    | _ => .error (.invalidLine line)
  else if rest.length = req + 1 then
    match rest with
    | nm :: ttlS :: cls :: sentinel :: fargs =>
      match pyInt? ttlS with
      | none => .error (.invalidLine line)
      | some ttl =>
        match convFields fields fargs with
        | none => .error (.invalidLine line)
        | some fvals =>
          if sentinel = cmd then
            .ok ([("name", .str nm), ("ttl", .int ttl), ("class", .str cls)] ++ fvals)
          else .error (.pyError "AssertionError")
    | _ => .error (.invalidLine line)
  else
    .error (.invalidLine line)

/-- The accumulator-independent part of source `parse_line` (lines 254-316):
token rewriting, argparse dispatch, record-type detection and the
dropping of unset optional fields.  Yields the record type, the record
(sentinel key removed), and `class_inferred`. -/
def parseLineCore (t : List String) : Except PErr (String × Record × Bool) :=
  let line := pyJoin " " t
  match transformTokens t with
  | .error e => .error e
  | .ok (t2, inferred) =>
    match t2 with
    | [] => .error (.invalidLine line)
    | cmd :: rest =>
      if cmd = "$ORIGIN" then
        match rest with
        | [v] => .ok ("$ORIGIN", [("$ORIGIN", .str v)], inferred)
        | _ => .error (.invalidLine line)
      else if cmd = "$TTL" then
        match rest with
        | [v] =>
          match pyInt? v with
          | some n => .ok ("$TTL", [("$TTL", .int n)], inferred)
          | none => .error (.invalidLine line)
        | _ => .error (.invalidLine line)
      else
        match rrArgsAndTypes cmd with
        | none => .error (.invalidLine line)
        | some fields =>
          match parseRR cmd fields rest line with
          | .error e => .error e
          | .ok rec => .ok (cmd, rec, inferred)

/-- Python `s.lower()` on ASCII letters. -/
def lowerStr (s : String) : String :=
  ⟨s.data.map (fun c => if 'A' ≤ c && c ≤ 'Z' then Char.ofNat (c.toNat + 32) else c)⟩

/-- The accumulator-dependent tail of source `parse_line` (lines 318-337):
the PTR `fullname` fix-up — whose origin lookup uses the upper-case key
`"$ORIGIN"` against an accumulator whose keys were stored lower-cased, so
concatenation hits `None` and raises `TypeError` — the `_missing_class`
marker, and the merge into the accumulator. -/
def applyFixups (rtype : String) (rec : Record) (inferred : Bool)
    (acc : ZFile) : Except PErr ZFile :=
  let withFull : Except PErr Record :=
    if rtype = "PTR" then
      match assocFind "name" rec with
      | some (.str nm) =>
        match assocFind "$ORIGIN" rec with
        | some (.str o) => .ok (rec ++ [("fullname", .str (nm ++ "." ++ o))])
        | some _ => .error (.pyError "TypeError")
        | none =>
          match assocFind "$ORIGIN" acc with
          | some (.scalar (.str o)) => .ok (rec ++ [("fullname", .str (nm ++ "." ++ o))])
          | some _ => .error (.pyError "TypeError")
          | none => .error (.pyError "TypeError")
      | some _ => .error (.pyError "TypeError")
      | none => .error (.pyError "KeyError")
    else
      .ok rec
  match withFull with
  | .error e => .error e
  | .ok rec1 =>
    let rec2 := if inferred then rec1 ++ [("_missing_class", .bool true)] else rec1
    if rec2.length > 0 then
      if headIs '$' rtype then
        match assocFind rtype rec2 with
        | some v => .ok (assocSet (lowerStr rtype) (.scalar v) acc)
        | none => .error (.pyError "KeyError")
      else
        match assocFind (lowerStr rtype) acc with
        | some (.recs rs) => .ok (assocSet (lowerStr rtype) (.recs (rs ++ [rec2])) acc)
        | some (.scalar _) => .error (.pyError "AttributeError")
        | none => .ok (acc ++ [(lowerStr rtype, .recs [rec2])])
    else
      .ok acc

/-- Source `parse_line` (lines 254-337), as a function from a line's token
list and the records parsed so far to the new record set or an error. -/
def parse_line (t : List String) (acc : ZFile) : Except PErr ZFile :=
  match parseLineCore t with
  | .error e => .error e
  | .ok (rtype, rec, inferred) => applyFixups rtype rec inferred acc

/-- The loop of source `parse_lines` (lines 350-358): tokenize and parse
each line in turn; in lenient mode an `InvalidLineException` skips the
line, while any other exception propagates in both modes. -/
def parseLinesGo (lenient : Bool) (acc : ZFile) : List String → Except PErr ZFile
  | [] => .ok acc
  | l :: ls =>
    match parse_line (tokenize_line l) acc with
    | .ok acc2 => parseLinesGo lenient acc2 ls
    | .error (.invalidLine m) =>
      if lenient then parseLinesGo lenient acc ls else .error (.invalidLine m)
    | .error (.pyError m) => .error (.pyError m)

/-- Source `parse_lines` (lines 340-360): split the flattened, comment-free
text into lines and fold `parse_line` over them, starting from an empty
record set. -/
def parse_lines (text : String) (ignore_invalid : Bool) : Except PErr ZFile :=
  parseLinesGo ignore_invalid [] (pySplit '\n' text)

/-- Source `parse_zone_file` (lines 363-371): the full pipeline. -/
def parse_zone_file (text : String) (ignore_invalid : Bool) : Except PErr ZFile :=
  parse_lines (add_default_name (flatten (remove_comments text))) ignore_invalid

deriving instance DecidableEq for Except

/-- A token in the restricted round-trip domain: non-empty, free of quote,
backslash and semicolon characters, and any whitespace character it holds
is the plain space. -/
def GoodTok (t : String) : Prop :=
  t.data ≠ [] ∧ ∀ c ∈ t.data, c ≠ '"' ∧ c ≠ '\\' ∧ c ≠ ';' ∧ (pyIsSpace c = true → c = ' ')

instance : DecidablePred GoodTok := fun t => by
  unfold GoodTok
  infer_instance

theorem data_append (s t : String) : (s ++ t).data = s.data ++ t.data := rfl

theorem push_mk (b : List Char) (c : Char) : String.push ⟨b⟩ c = ⟨b ++ [c]⟩ := rfl

theorem mk_data (s : String) : (⟨s.data⟩ : String) = s := rfl

theorem dropWhile_eq_self_of_not_mem {c : Char} {l : List Char} (h : c ∉ l) :
    l.dropWhile (· = c) = l := by
  cases l with
  | nil => rfl
  | cons a l =>
    have ha : ¬(a = c) := fun he => h (by simp [he])
    simp [List.dropWhile_cons, ha]

theorem stripChar_of_not_mem (c : Char) (l : List Char) (h : c ∉ l) : stripChar c l = l := by
  unfold stripChar
  rw [dropWhile_eq_self_of_not_mem h,
    dropWhile_eq_self_of_not_mem (by simpa using h), List.reverse_reverse]

/-- Scanning a run of ordinary characters (no whitespace, quote, backslash
or semicolon) outside quotes just extends the token buffer. -/
theorem tokGo_normal : ∀ (l : List Char),
    (∀ c ∈ l, pyIsSpace c = false ∧ c ≠ '"' ∧ c ≠ '\\' ∧ c ≠ ';') →
    ∀ (cs : List Char) (acc : List String) (b : List Char),
    tokGo (l ++ cs) acc ⟨b⟩ false false = tokGo cs acc ⟨b ++ l⟩ false false := by
  intro l
  induction l with
  | nil => intro _ cs acc b; simp
  | cons c l ih =>
    intro h cs acc b
    obtain ⟨h1, h2, h3, h4⟩ := h c (List.mem_cons_self c l)
    have hrest := fun d hd => h d (List.mem_cons_of_mem c hd)
    simp only [List.cons_append, tokGo, h1, h2, h3, h4, Bool.false_eq_true, if_false,
      if_neg, push_mk, List.append_eq]
    rw [ih hrest cs acc (b ++ [c])]
    simp

/-- Scanning a run of characters free of quote, backslash and semicolon
inside quotes just extends the token buffer (whitespace included). -/
theorem tokGo_quoted : ∀ (l : List Char),
    (∀ c ∈ l, c ≠ '"' ∧ c ≠ '\\' ∧ c ≠ ';') →
    ∀ (cs : List Char) (acc : List String) (b : List Char),
    tokGo (l ++ cs) acc ⟨b⟩ false true = tokGo cs acc ⟨b ++ l⟩ false true := by
  intro l
  induction l with
  | nil => intro _ cs acc b; simp
  | cons c l ih =>
    intro h cs acc b
    obtain ⟨h2, h3, h4⟩ := h c (List.mem_cons_self c l)
    have hrest := fun d hd => h d (List.mem_cons_of_mem c hd)
    by_cases h1 : pyIsSpace c = true
    · simp only [List.cons_append, tokGo, h1, if_true, Bool.not_true, Bool.not_false,
        Bool.false_and, Bool.false_eq_true, if_false, push_mk, List.append_eq]
      rw [ih hrest cs acc (b ++ [c])]
      simp
    · simp only [List.cons_append, tokGo, eq_false_of_ne_true h1, Bool.false_eq_true,
        if_false, h2, h3, h4, if_neg, push_mk, List.append_eq]
      rw [ih hrest cs acc (b ++ [c])]
      simp

theorem goodTok_no_semi {t : String} (h : GoodTok t) : ';' ∉ t.data :=
  fun hm => (h.2 ';' hm).2.2.1 rfl

theorem goodTok_no_space_all {t : String} (h : GoodTok t) (hsp : ' ' ∉ t.data) :
    ∀ c ∈ t.data, pyIsSpace c = false ∧ c ≠ '"' ∧ c ≠ '\\' ∧ c ≠ ';' := by
  intro c hc
  obtain ⟨h1, h2, h3, h4⟩ := h.2 c hc
  refine ⟨?_, h1, h2, h3⟩
  cases hps : pyIsSpace c with
  | false => rfl
  | true => exact absurd (h4 hps ▸ hc) hsp

theorem serializeTok_unquoted {t : String} (hsp : ' ' ∉ t.data) (hsemi : ';' ∉ t.data) :
    serializeTok t = t := by
  simp [serializeTok, hsp, hsemi]

theorem serializeTok_quoted {t : String} (hsp : ' ' ∈ t.data) (hsemi : ';' ∉ t.data) :
    serializeTok t = "\"" ++ t ++ "\"" := by
  have hd : ("\"" ++ t ++ "\"").data = '"' :: (t.data ++ ['"']) := by
    rw [data_append, data_append]
    rfl
  have hsemi2 : ';' ∉ ("\"" ++ t ++ "\"").data := by
    rw [hd]
    simp [hsemi]
  simp only [serializeTok]
  rw [if_pos hsp, if_neg hsemi2]

/-- The final flush of `tokenize_line` keeps a good unquoted token. -/
theorem tokGo_end_good {t : String} (h : GoodTok t) (hsp : ' ' ∉ t.data)
    (acc : List String) : tokGo [] acc t false false = acc ++ [t] := by
  have hnl : '\n' ∉ t.data := by
    intro hm
    have := (h.2 '\n' hm).2.2.2 (by decide)
    exact hsp (this ▸ hm)
  simp only [tokGo]
  rw [stripChar_of_not_mem ' ' t.data hsp, stripChar_of_not_mem '\n' t.data hnl]
  have hpos : 0 < t.length := String.length_data t ▸ List.length_pos.mpr h.1
  simp [hpos]

/-- Consuming one serialized good token at the end of the input emits just
that token. -/
theorem tokGo_serializeTok_end (t : String) (h : GoodTok t) (acc : List String) :
    tokGo (serializeTok t).data acc "" false false = acc ++ [t] := by
  by_cases hsp : ' ' ∈ t.data
  · rw [serializeTok_quoted hsp (goodTok_no_semi h)]
    have hd : ("\"" ++ t ++ "\"").data = '"' :: (t.data ++ ['"']) := by
      rw [data_append, data_append]; rfl
    rw [hd]
    have hq : ∀ c ∈ t.data, c ≠ '"' ∧ c ≠ '\\' ∧ c ≠ ';' := by
      intro c hc
      obtain ⟨h1, h2, h3, _⟩ := h.2 c hc
      exact ⟨h1, h2, h3⟩
    calc tokGo ('"' :: (t.data ++ ['"'])) acc "" false false
        = tokGo (t.data ++ ['"']) acc ⟨[]⟩ false true := by
          simp [tokGo, pyIsSpace]
      _ = tokGo ['"'] acc ⟨[] ++ t.data⟩ false true := tokGo_quoted t.data hq ['"'] acc []
      _ = acc ++ [t] := by
          simp only [List.nil_append, mk_data]
          simp [tokGo, pyIsSpace, stripChar]
  · rw [serializeTok_unquoted hsp (goodTok_no_semi h)]
    have := tokGo_normal t.data (goodTok_no_space_all h hsp) [] acc []
    rw [List.append_nil] at this
    calc tokGo t.data acc "" false false
        = tokGo [] acc ⟨[] ++ t.data⟩ false false := this
      _ = acc ++ [t] := by
          rw [List.nil_append, mk_data]
          exact tokGo_end_good h hsp acc

/-- Consuming one serialized good token followed by a space separator emits
that token and leaves a fresh scanner state. -/
theorem tokGo_serializeTok_sep (t : String) (h : GoodTok t) (cs : List Char)
    (acc : List String) :
    tokGo ((serializeTok t).data ++ ' ' :: cs) acc "" false false =
      tokGo cs (acc ++ [t]) "" false false := by
  by_cases hsp : ' ' ∈ t.data
  · rw [serializeTok_quoted hsp (goodTok_no_semi h)]
    have hd : ("\"" ++ t ++ "\"").data = '"' :: (t.data ++ ['"']) := by
      rw [data_append, data_append]; rfl
    rw [hd]
    have hq : ∀ c ∈ t.data, c ≠ '"' ∧ c ≠ '\\' ∧ c ≠ ';' := by
      intro c hc
      obtain ⟨h1, h2, h3, _⟩ := h.2 c hc
      exact ⟨h1, h2, h3⟩
    calc tokGo (('"' :: (t.data ++ ['"'])) ++ ' ' :: cs) acc "" false false
        = tokGo (t.data ++ ('"' :: ' ' :: cs)) acc ⟨[]⟩ false true := by
          simp [tokGo, pyIsSpace]
      _ = tokGo ('"' :: ' ' :: cs) acc ⟨[] ++ t.data⟩ false true :=
          tokGo_quoted t.data hq ('"' :: ' ' :: cs) acc []
      _ = tokGo cs (acc ++ [t]) "" false false := by
          simp only [List.nil_append, mk_data]
          simp [tokGo, pyIsSpace]
  · rw [serializeTok_unquoted hsp (goodTok_no_semi h)]
    calc tokGo (t.data ++ ' ' :: cs) acc "" false false
        = tokGo (' ' :: cs) acc ⟨[] ++ t.data⟩ false false :=
          tokGo_normal t.data (goodTok_no_space_all h hsp) (' ' :: cs) acc []
      _ = tokGo cs (acc ++ [t]) "" false false := by
          rw [List.nil_append, mk_data]
          have hlen : 0 < t.length := String.length_data t ▸ List.length_pos.mpr h.1
          simp [tokGo, pyIsSpace, hlen]

/-- Retokenizing the serialization of good tokens recovers exactly those
tokens, whatever was already emitted. -/
theorem tokGo_serialize : ∀ (toks : List String), (∀ t ∈ toks, GoodTok t) →
    ∀ (acc : List String),
    tokGo (serialize toks).data acc "" false false = acc ++ toks := by
  intro toks
  induction toks with
  | nil =>
    intro _ acc
    simp [serialize, pyJoin, tokGo, stripChar]
  | cons t rest ih =>
    intro h acc
    have ht : GoodTok t := h t (List.mem_cons_self t rest)
    have hrest : ∀ u ∈ rest, GoodTok u := fun u hu => h u (List.mem_cons_of_mem t hu)
    cases rest with
    | nil =>
      have : serialize [t] = serializeTok t := by simp [serialize, pyJoin]
      rw [this, tokGo_serializeTok_end t ht acc]
    | cons r rs =>
      have hser : serialize (t :: r :: rs) = serializeTok t ++ " " ++ serialize (r :: rs) := by
        simp [serialize, pyJoin]
      have hdata : (serialize (t :: r :: rs)).data =
          (serializeTok t).data ++ ' ' :: (serialize (r :: rs)).data := by
        rw [hser, data_append, data_append]
        simp
      rw [hdata, tokGo_serializeTok_sep t ht _ acc, ih hrest (acc ++ [t])]
      simp

theorem ne_bs_of_space {c : Char} (h : pyIsSpace c = true) : c ≠ '\\' := by
  intro he
  rw [he] at h
  exact absurd h (by decide)

/-- The scanner never copies a backslash into the token buffer: assuming no
emitted token and no buffer character is a backslash, the final token list
has none either. -/
theorem tokGo_no_bs : ∀ (l : List Char) (acc : List String) (b : List Char)
    (esc q : Bool), (∀ u ∈ acc, '\\' ∉ u.data) → '\\' ∉ b →
    ∀ t ∈ tokGo l acc ⟨b⟩ esc q, '\\' ∉ t.data := by
  intro l
  induction l with
  | nil =>
    intro acc b esc q hacc hb t ht
    simp only [tokGo] at ht
    split_ifs at ht
    · rcases List.mem_append.mp ht with hm | hm
      · exact hacc t hm
      · rw [List.mem_singleton] at hm
        rw [hm]
        exact hb
    · exact hacc t ht
  | cons c cs ih =>
    intro acc b esc q hacc hb t ht
    have haccb : ∀ u ∈ acc ++ [(⟨b⟩ : String)], '\\' ∉ u.data := by
      intro u hu
      rcases List.mem_append.mp hu with hm | hm
      · exact hacc u hm
      · rw [List.mem_singleton] at hm
        rw [hm]
        exact hb
    have hpush : ∀ (hc : c ≠ '\\'), '\\' ∉ b ++ [c] := by
      intro hc hm
      rcases List.mem_append.mp hm with hm | hm
      · exact hb hm
      · rw [List.mem_singleton] at hm
        exact hc hm.symm
    simp only [tokGo, push_mk] at ht
    split_ifs at ht <;>
    first
      | exact ih _ _ _ _ haccb (List.not_mem_nil '\\') t ht
      | exact ih _ _ _ _ hacc (List.not_mem_nil '\\') t ht
      | exact ih _ _ _ _ hacc hb t ht
      | exact ih _ _ _ _ hacc (hpush (by
          first
            | exact ne_bs_of_space ‹pyIsSpace c = true›
            | (rw [‹c = '"'›]; decide)
            | (rw [‹c = ';'›]; decide)
            | exact ‹¬c = '\\'›)) t ht
      | (rcases List.mem_append.mp ht with hm | hm
         · exact hacc t hm
         · rw [List.mem_singleton] at hm
           rw [hm]
           exact hb)

/-- A successful strict prefix of a line fold lets the fold be split at
that point, in either mode. -/
theorem parseLinesGo_append (lb : Bool) : ∀ (xs ys : List String) (acc acc2 : ZFile),
    parseLinesGo lb acc xs = .ok acc2 →
    parseLinesGo lb acc (xs ++ ys) = parseLinesGo lb acc2 ys := by
  intro xs
  induction xs with
  | nil =>
    intro ys acc acc2 h
    simp only [parseLinesGo] at h
    cases h
    simp
  | cons x xs ih =>
    intro ys acc acc2 h
    simp only [parseLinesGo, List.cons_append] at h ⊢
    cases hx : parse_line (tokenize_line x) acc with
    | ok acc1 =>
      rw [hx] at h
      exact ih ys acc1 acc2 h
    | error e =>
      rw [hx] at h
      cases e with
      | invalidLine m =>
        cases lb with
        | false => simp at h
        | true => exact ih ys acc acc2 h
      | pyError m => simp at h

/-- A strict fold that succeeds on a concatenation succeeds on the prefix. -/
theorem parseLinesGo_prefix : ∀ (xs ys : List String) (acc : ZFile) (z : ZFile),
    parseLinesGo false acc (xs ++ ys) = .ok z →
    ∃ acc2, parseLinesGo false acc xs = .ok acc2 ∧ parseLinesGo false acc2 ys = .ok z := by
  intro xs
  induction xs with
  | nil =>
    intro ys acc z h
    exact ⟨acc, rfl, h⟩
  | cons x xs ih =>
    intro ys acc z h
    simp only [parseLinesGo, List.cons_append] at h ⊢
    cases hx : parse_line (tokenize_line x) acc with
    | ok acc1 =>
      rw [hx] at h
      exact ih ys acc1 z h
    | error e =>
      rw [hx] at h
      cases e with
      | invalidLine m => simp at h
      | pyError m => simp at h

/-- A strict fold that succeeds also succeeds leniently, with the same
result. -/
theorem parseLinesGo_lenient_of_strict : ∀ (xs : List String) (acc z : ZFile),
    parseLinesGo false acc xs = .ok z → parseLinesGo true acc xs = .ok z := by
  intro xs
  induction xs with
  | nil => intro acc z h; exact h
  | cons x xs ih =>
    intro acc z h
    simp only [parseLinesGo] at h ⊢
    cases hx : parse_line (tokenize_line x) acc with
    | ok acc1 =>
      rw [hx] at h
      exact ih acc1 z h
    | error e =>
      rw [hx] at h
      cases e with
      | invalidLine m => simp at h
      | pyError m => simp at h

/-- An accumulator-independent parse failure makes `parse_line` fail the
same way on every accumulator. -/
theorem parse_line_error_of_core {t : List String} {e : PErr}
    (h : parseLineCore t = .error e) (acc : ZFile) :
    parse_line t acc = .error e := by
  simp [parse_line, h]

/-- Claim C1: the spec says a PTR line parsed after `$ORIGIN example.com`
yields `fullname = "1.example.com"`.  The code instead stores the origin
under the lower-cased key `"$origin"` (line 331) but reads it back with
the upper-cased key `"$ORIGIN"` (line 318), so the lookup always misses
and `name + '.' + None` raises an uncaught `TypeError` — in strict and in
lenient mode alike.  This theorem evaluates the code at the spec's own
fixture. -/
theorem claim_C1_ptr_fullname_crash :
    parse_zone_file "$ORIGIN example.com\n1 PTR host" false =
      .error (.pyError "TypeError") ∧
    parse_zone_file "$ORIGIN example.com\n1 PTR host" true =
      .error (.pyError "TypeError") := by
  decide

/-- Claim C2, counterexample: the token `"a\tb"` contains no double-quote,
backslash or semicolon, yet it does not round-trip — `serialize` only
quotes tokens containing a plain space, so the tab is re-split by
`tokenize_line`. -/
theorem claim_C2_counterexample :
    (∀ c ∈ "a\tb".data, c ≠ '"' ∧ c ≠ '\\' ∧ c ≠ ';') ∧
    tokenize_line (serialize ["a\tb"]) ≠ ["a\tb"] := by
  decide

/-- Claim C2, amended: `tokenize_line` is a left inverse of `serialize` on
token sequences whose tokens are non-empty, contain no double-quote,
backslash or semicolon, and whose only whitespace character is the plain
space. -/
theorem claim_C2_roundtrip (toks : List String) (h : ∀ t ∈ toks, GoodTok t) :
    tokenize_line (serialize toks) = toks := by
  have := tokGo_serialize toks h []
  simpa [tokenize_line] using this

/-- Witness for the amended claim C2 at a concrete token sequence. -/
theorem claim_C2_witness :
    (∀ t ∈ ["A", "B C", "x1"], GoodTok t) ∧
    tokenize_line (serialize ["A", "B C", "x1"]) = ["A", "B C", "x1"] :=
  ⟨by decide, claim_C2_roundtrip ["A", "B C", "x1"] (by decide)⟩

/-- Claim C3, counterexample: `add_default_name` does not leave
`"A 3600 IN A 1.2.3.4"` unchanged — its first token `A` is itself a
record-type name, so a default name is prepended even though a name is
present. -/
theorem claim_C3_counterexample :
    add_default_name "A 3600 IN A 1.2.3.4" ≠ "A 3600 IN A 1.2.3.4" := by
  decide

/-- Claim C3, amended: `add_default_name` prepends `@` exactly when the
first token is a supported record type that is not a `$` directive, so
`"A 3600 IN A 1.2.3.4"` becomes `"@ A 3600 IN A 1.2.3.4"` (a present name
equal to a type name is treated as an omitted name), `"A 1.2.3.4"`
becomes `"@ A 1.2.3.4"`, and a line whose first token is not a type name
is unchanged. -/
theorem claim_C3_default_name :
    add_default_name "A 3600 IN A 1.2.3.4" = "@ A 3600 IN A 1.2.3.4" ∧
    add_default_name "A 1.2.3.4" = "@ A 1.2.3.4" ∧
    add_default_name "www A 1.2.3.4" = "www A 1.2.3.4" := by
  decide

/-- Claim C4: `"www IN 3600 A 1.2.3.4"` and `"www 3600 IN A 1.2.3.4"` parse
to the same record, with ttl 3600 and class `IN` — TTL and class commute
when both are present. -/
theorem claim_C4_ttl_class_commute :
    parse_zone_file "www IN 3600 A 1.2.3.4" false =
      parse_zone_file "www 3600 IN A 1.2.3.4" false ∧
    parse_zone_file "www 3600 IN A 1.2.3.4" false =
      .ok [("a", .recs [[("name", .str "www"), ("ttl", .int 3600),
        ("class", .str "IN"), ("ip", .str "1.2.3.4")]])] := by
  decide

/-- Claim C5: if the lines of a zonefile text are valid except for one line
on which the line parser raises `InvalidLineException`, then strict
parsing raises that error while lenient parsing returns exactly the
records of the remaining lines — the skipped line leaks no state. -/
theorem claim_C5_lenient_vs_strict (text : String) (pre post : List String)
    (bad m : String) (z : ZFile)
    (hsplit : pySplit '\n' text = pre ++ bad :: post)
    (hbad : parseLineCore (tokenize_line bad) = .error (.invalidLine m))
    (hok : parseLinesGo false [] (pre ++ post) = .ok z) :
    parse_lines text false = .error (.invalidLine m) ∧
    parse_lines text true = .ok z := by
  obtain ⟨acc2, hpre, hpost⟩ := parseLinesGo_prefix pre post [] z hok
  have hbad2 : parse_line (tokenize_line bad) acc2 = .error (.invalidLine m) :=
    parse_line_error_of_core hbad acc2
  constructor
  · simp only [parse_lines]
    rw [hsplit, parseLinesGo_append false pre (bad :: post) [] acc2 hpre]
    simp [parseLinesGo, hbad2]
  · have hpre2 := parseLinesGo_lenient_of_strict pre [] acc2 hpre
    have hpost2 := parseLinesGo_lenient_of_strict post acc2 z hpost
    simp only [parse_lines]
    rw [hsplit, parseLinesGo_append true pre (bad :: post) [] acc2 hpre2]
    simp [parseLinesGo, hbad2, hpost2]

/-- Witness for claim C5: a three-line zonefile whose middle line is
malformed raises in strict mode and yields the two valid records in
lenient mode. -/
theorem claim_C5_witness :
    parse_lines "$TTL 3600\nBADLINE\nwww A 1.2.3.4" false =
      .error (.invalidLine "BADLINE") ∧
    parse_lines "$TTL 3600\nBADLINE\nwww A 1.2.3.4" true =
      .ok [("$ttl", .scalar (.int 3600)),
           ("a", .recs [[("name", .str "www"), ("class", .str "IN"),
             ("ip", .str "1.2.3.4"), ("_missing_class", .bool true)]])] :=
  claim_C5_lenient_vs_strict "$TTL 3600\nBADLINE\nwww A 1.2.3.4"
    ["$TTL 3600"] ["www A 1.2.3.4"] "BADLINE" "BADLINE" _
    (by decide) (by decide) (by decide)

/-- Claim C6, counterexample: `flatten` does not map
`"NS ( host1\nhost2 )"` to `"NS host1 host2"` — the stripped parentheses
and the captured line-break sentinel leave empty tokens that the final
join turns into doubled and trailing spaces. -/
theorem claim_C6_counterexample :
    flatten "NS ( host1\nhost2 )" ≠ "NS host1 host2" := by
  decide

/-- Claim C6, amended: `flatten` merges the two physical lines into the
single line `"NS  host1  host2 "` — parentheses and the line break are
gone and the tokens keep their order, but empty buffer entries yield
doubled/trailing spaces, so only retokenizing gives `["NS", "host1",
"host2"]`. -/
theorem claim_C6_flatten :
    flatten "NS ( host1\nhost2 )" = "NS  host1  host2 " ∧
    tokenize_line (flatten "NS ( host1\nhost2 )") = ["NS", "host1", "host2"] := by
  decide

/-- Claim C7, counterexample: on input `A\\B` (two consecutive
backslashes) the resulting token is `AB` — the second backslash is
consumed like the first (the escape flag is set unconditionally at source
lines 118-120), never emitted literally. -/
theorem claim_C7_counterexample :
    tokenize_line "A\\\\B" = ["AB"] ∧ '\\' ∉ "AB".data := by
  decide

/-- Claim C7, amended: a backslash always sets the escape flag and is
consumed, even when the scanner is already escaped, so no token produced
by `tokenize_line` ever contains a literal backslash; a double backslash
leaves the escape flag set, so `A\\ B` scans the space as escaped and
yields the single token `"A B"`. -/
theorem claim_C7_no_backslash :
    (∀ (line t : String), t ∈ tokenize_line line → '\\' ∉ t.data) ∧
    tokenize_line "A\\\\ B" = ["A B"] := by
  constructor
  · intro line t ht
    exact tokGo_no_bs line.data [] [] false false
      (fun u hu => absurd hu (List.not_mem_nil u)) (List.not_mem_nil '\\') t ht
  · decide

/-- Witness for the amended claim C7 at a concrete line. -/
theorem claim_C7_witness :
    "A B" ∈ tokenize_line "A\\ B" ∧ '\\' ∉ "A B".data :=
  ⟨by decide, claim_C7_no_backslash.1 "A\\ B" "A B" (by decide)⟩

/-- Claim C8: the four tokenizer fixtures — plain split, quoted token,
escaped space, and comment truncation flushing the empty buffer as a
trailing empty token. -/
theorem claim_C8_tokenizer_fixtures :
    tokenize_line "A B" = ["A", "B"] ∧
    tokenize_line "A \"B C\"" = ["A", "B C"] ∧
    tokenize_line "A\\ B" = ["A B"] ∧
    tokenize_line "A ; comment" = ["A", ""] := by
  decide

/-- Claim C9: with two `$TTL` directives only the second value is kept,
stored as a scalar integer under the lower-cased key `"$ttl"`; `$ORIGIN`
is likewise a scalar string under `"$origin"`; resource records
accumulate under their lower-cased type name as a list in source line
order. -/
theorem claim_C9_directive_singleton :
    parse_zone_file
        "$TTL 3600\nwww A 1.2.3.4\n$TTL 7200\n$ORIGIN example.com\nwww2 A 1.2.3.5"
        false =
      .ok [("$ttl", .scalar (.int 7200)),
           ("a", .recs [[("name", .str "www"), ("class", .str "IN"),
                         ("ip", .str "1.2.3.4"), ("_missing_class", .bool true)],
                        [("name", .str "www2"), ("class", .str "IN"),
                         ("ip", .str "1.2.3.5"), ("_missing_class", .bool true)]]),
           ("$origin", .scalar (.str "example.com"))] := by
  decide

/-- Claim C10: an unescaped semicolon stops the scan even inside a quoted
region — concretely `tokenize_line "a \"b;c\"" = ["a", "b"]`, and in
general the scanner halts at any unescaped `;` whatever the quote flag,
flushing the current buffer and discarding the rest of the line. -/
theorem claim_C10_semicolon_in_quotes :
    tokenize_line "a \"b;c\"" = ["a", "b"] ∧
    (∀ (cs : List Char) (acc : List String) (buf : String) (q : Bool),
      tokGo (';' :: cs) acc buf false q = acc ++ [buf]) := by
  refine ⟨by decide, ?_⟩
  intro cs acc buf q
  rfl

end ZoneFilePy
